import Mathlib

/-!
# Verification of the fleet analytics engine

A shallow embedding in Lean 4 of the analytics/aggregation engine of the
`backend` repository (files `app/utils/common.py`, `app/routers/analytics_routes.py`,
`app/schemas.py`), together with theorems settling the specification claims.

Modelling conventions:
* Python floats are modelled as exact rationals (`ℚ`); the arithmetic the engine
  performs (sums, products, division) is expressed over `ℚ`.
* Calendar dates are modelled as integers counting days (a `datetime.date` minus a
  `Timedelta(days = k)` becomes integer subtraction by `k`); comparisons between
  dates are integer comparisons, matching Python date ordering.
* A Python `dict` of system settings is modelled as an association list
  `List (String × String)`; the optional `config: dict = None` parameter becomes
  `Option (List (String × String))`, and Python truthiness of a dict (`if config:`)
  is `some cfg` with `cfg` non-empty.
* Pandas dataframes are not reified: each `groupby` is expressed as the list of
  distinct group keys (in pandas order: sorted ascending for `groupby`,
  first-occurrence order for `Series.unique`) paired with the filter of the record
  list by that key, which is exactly the multiset of rows pandas aggregates.
-/

/-- Characters Python `str.strip()` removes (ASCII whitespace); the engine's fleet
codes are ASCII. -/
def isStripChar (c : Char) : Bool :=
  c = ' ' ∨ c = '\t' ∨ c = '\n' ∨ c = '\r'

/-- Model of Python `str.strip()` on ASCII strings, written over the character
list so that it evaluates in the kernel. -/
def pyStrip (s : String) : String :=
  String.mk (((s.toList.dropWhile isStripChar).reverse.dropWhile isStripChar).reverse)

/-- Model of Python `str.upper()` on ASCII strings (`Char.toUpper` agrees with
Python on ASCII). -/
def pyUpper (s : String) : String :=
  String.mk (s.toList.map Char.toUpper)

/-- `listStarts pre l` is true when `pre` is an initial segment of `l`; used to
model Python `str.startswith`. -/
def listStarts : List Char → List Char → Bool
  | [], _ => true
  | _ :: _, [] => false
  | a :: as, b :: bs => a = b && listStarts as bs

/-- Model of Python `str.startswith(p)`. -/
def pyStarts (s p : String) : Bool :=
  listStarts p.toList s.toList

/-- Value of a list of decimal digit characters. -/
def natOfDigits (l : List Char) : Nat :=
  l.foldl (fun n c => 10 * n + (c.toNat - 48)) 0

/-- Parse an unsigned decimal literal (digits with an optional decimal point) as
an exact rational. Returns `none` on anything else. -/
def parseUnsigned (l : List Char) : Option ℚ :=
  let intPart := l.takeWhile Char.isDigit
  let rest := l.dropWhile Char.isDigit
  match rest with
  | [] => if intPart.isEmpty then none else some (natOfDigits intPart)
  | '.' :: frac =>
      if frac.all Char.isDigit && !(intPart.isEmpty && frac.isEmpty) then
        some ((natOfDigits (intPart ++ frac) : ℚ) / (10 : ℚ) ^ frac.length)
      else none
  | _ => none

/-- Model of Python `float(s)` restricted to the decimal literals relevant to the
`REMITTANCE_<prefix-digit>` settings: optional surrounding whitespace, optional
sign, digits with an optional decimal point. Exotic accepted forms of Python
`float` (exponents, `inf`, `nan`, underscores) are outside the modelled
configuration language and map to `none` like any other parse failure. -/
def pyFloat (s : String) : Option ℚ :=
  match (pyStrip s).toList with
  | '-' :: rest => (parseUnsigned rest).map (fun q => -q)
  | '+' :: rest => parseUnsigned rest
  | l => parseUnsigned l

/-- First character of a string as a one-character string (`fleet_code[0]`),
or `""` when the string is empty (the code's `if fleet_code else ''`). -/
def firstCharStr (s : String) : String :=
  match s.toList with
  | [] => ""
  | c :: _ => String.mk [c]

/-- Python `dict` lookup on the association-list model (`key in config` plus
`config[key]`); a dict has unique keys, so first match is the match. -/
def dictLookup (cfg : List (String × String)) (k : String) : Option String :=
  (cfg.find? (fun p => p.1 == k)).map (fun p => p.2)

/-- The dynamic-configuration branch of `calculate_remittance`
(`app/utils/common.py` lines 52-61): when `config` is truthy and holds key
`"REMITTANCE_" ++ first character` with a value `float()` accepts, the rate is
that value divided by 100; any parse failure (`except: pass`) or missing key
falls through to `none`. `fleet_code` is already stripped by the caller. -/
def configRate (fleet_code : String) (config : Option (List (String × String))) : Option ℚ :=
  match config with
  | none => none
  | some cfg =>
      if cfg.isEmpty then none
      else
        match dictLookup cfg ("REMITTANCE_" ++ firstCharStr fleet_code) with
        | none => none
        | some v =>
            match pyFloat v with
            | none => none
            | some q => some (q / 100)

/-- Embedding of `calculate_remittance(revenue, fleet_code, config)`
(`app/utils/common.py` lines 44-68): strip the fleet code, try the dynamic
config rate, otherwise apply the hardcoded defaults 0.84 for codes starting
with "1", 0.875 for codes starting with "2", and identity for the rest. -/
def calculate_remittance (revenue : ℚ) (fleet_code : String)
    (config : Option (List (String × String))) : ℚ :=
  let fc := pyStrip fleet_code
  match configRate fc config with
  | some rate => revenue * rate
  | none =>
      if pyStarts fc "1" then revenue * 0.84
      else if pyStarts fc "2" then revenue * 0.875
      else revenue

/-- A raw fleet record as the engine reads it (`FleetRecord` rows fed to
`DataProcessor.process_analytics`): a database id, a calendar date (modelled as
a day number), a fleet label, and a monetary amount. -/
structure FleetRec where
  id : Int
  date : Int
  fleet : String
  amount : ℚ
deriving DecidableEq

/-- `FleetSummary` of `app/schemas.py`. -/
structure FleetSummary where
  fleet : String
  total_amount : ℚ
  record_count : Nat
  remittance : ℚ
deriving DecidableEq

/-- `DailySubtotal` of `app/schemas.py`. -/
structure DailySubtotal where
  date : Int
  fleet : String
  daily_total : ℚ
  pax : Nat
deriving DecidableEq

/-- `DashboardStats` of `app/schemas.py`; `predicted_revenue` and
`revenue_trend_percent` carry the schema default `0.0` when a constructor site
does not supply them, exactly like the pydantic model. -/
structure DashboardStats where
  total_revenue : ℚ
  total_records : Nat
  top_performing_fleet : String
  average_trip_revenue : ℚ
  predicted_revenue : ℚ := 0
  revenue_trend_percent : ℚ := 0
deriving DecidableEq

/-- The `reason` string of an `Anomaly`. The z-score is irrational in general
(a square root), so the constructor for the high-severity reason
`"Significant deviation (Z-score: {z:.2f})"` carries the exact square `z²` of
the reported score; the medium-severity reason is the fixed string
`"Unusual amount for this fleet"`. -/
inductive AnomalyReason where
  | significantDeviation (zsq : ℚ)
  | unusualAmount
deriving DecidableEq

/-- `Anomaly` of `app/schemas.py` (severity is one of "high", "medium"). -/
structure Anomaly where
  date : Int
  fleet : String
  amount : ℚ
  reason : AnomalyReason
  severity : String
deriving DecidableEq

/-- `AnalyticsResponse` of `app/schemas.py`; the `records` echo uses the same
row type as the input since `FleetRecordOut` carries the same fields. -/
structure AnalyticsResponse where
  records : List FleetRec
  fleet_summaries : List FleetSummary
  daily_subtotals : List DailySubtotal
  dashboard_stats : DashboardStats
  anomalies : List Anomaly
deriving DecidableEq

/-- Distinct elements of a list in order of first appearance: the order pandas
`Series.unique` yields, and the distinct-key set of a `groupby`. -/
def uniqueFirst {α : Type} [DecidableEq α] : List α → List α
  | [] => []
  | a :: l => a :: (uniqueFirst l).filter (fun x => decide (x ≠ a))

/-- Insert `a` into `l` before the first element `b` with `le a b`. -/
def insertLe {α : Type} (le : α → α → Bool) (a : α) : List α → List α
  | [] => [a]
  | b :: l => if le a b then a :: b :: l else b :: insertLe le a l

/-- Insertion sort by the boolean relation `le`; used to model the ascending
(resp. descending) orderings pandas `groupby`/`sort_values` and the SQL
`ORDER BY` clauses produce. All key lists sorted here are duplicate-free, so
stability is immaterial. -/
def sortLe {α : Type} (le : α → α → Bool) : List α → List α
  | [] => []
  | a :: l => insertLe le a (sortLe le l)

/-- Lexicographic comparison of character lists by code point: the ordering
Python (and pandas) uses on strings. -/
def charListLe : List Char → List Char → Bool
  | [], _ => true
  | _ :: _, [] => false
  | a :: as, b :: bs => if a = b then charListLe as bs else decide (a < b)

/-- String order by code points (Python `<=` on `str`). -/
def strLeB (s t : String) : Bool := charListLe s.toList t.toList

/-- Ascending order on dates. -/
def intLeB (a b : Int) : Bool := decide (a ≤ b)

/-- Descending order on dates (`ORDER BY date DESC`). -/
def intGeB (a b : Int) : Bool := decide (b ≤ a)

/-- Ascending lexicographic order on (date, fleet) keys, as in
`sort_values(by=["date", "fleet"])`. -/
def dateFleetLeB (p q : Int × String) : Bool :=
  decide (p.1 < q.1) || (decide (p.1 = q.1) && strLeB p.2 q.2)

/-- Fleet-label normalization of `process_analytics` (`common.py` lines 137-140):
trim, uppercase, and canonicalize the known alias `"2010M"` to `"2010"`. -/
def normalizeFleet (s : String) : String :=
  let f := pyUpper (pyStrip s)
  if f = "2010M" then "2010" else f

/-- The dataframe `process_analytics` builds: the input records with normalized
fleet labels (dates and amounts unchanged). -/
def normalizeData (records : List FleetRec) : List FleetRec :=
  records.map (fun r => { r with fleet := normalizeFleet r.fleet })

/-- `df['date'].max()` on a non-empty record list (the `[]` branch is never
reached by the caller). -/
def maxDate (data : List FleetRec) : Int :=
  match data with
  | [] => 0
  | r :: rest => rest.foldl (fun m x => max m x.date) r.date

/-- Revenue of the "last window": records with `date >= max_date - 7`
(`common.py` line 190). -/
def revLast (data : List FleetRec) : ℚ :=
  ((data.filter (fun r => decide (maxDate data - 7 ≤ r.date))).map (fun r => r.amount)).sum

/-- Revenue of the "previous window": records with
`max_date - 14 <= date < max_date - 7` (`common.py` line 191). -/
def revPrev (data : List FleetRec) : ℚ :=
  ((data.filter (fun r =>
      decide (r.date < maxDate data - 7) && decide (maxDate data - 14 ≤ r.date))).map
    (fun r => r.amount)).sum

/-- `trend_percent` of `process_analytics` (`common.py` lines 196-198). -/
def trendPercent (data : List FleetRec) : ℚ :=
  if revPrev data > 0 then ((revLast data - revPrev data) / revPrev data) * 100 else 0

/-- The rows a fleet-keyed `groupby` aggregates for key `f`. -/
def fleetGroup (data : List FleetRec) (f : String) : List FleetRec :=
  data.filter (fun r => decide (r.fleet = f))

/-- The rows a (date, fleet)-keyed `groupby` aggregates for key `k`: the rows
whose (date, fleet) pair equals the key. -/
def dateFleetGroup (data : List FleetRec) (k : Int × String) : List FleetRec :=
  data.filter (fun r => decide ((r.date, r.fleet) = k))

/-- Fleet summaries of `process_analytics` (`common.py` lines 155-168):
`groupby("fleet")` (keys sorted ascending, pandas default) aggregating sum and
count, remittance via `calculate_remittance`. -/
def fleetSummaries (data : List FleetRec) (config : Option (List (String × String))) :
    List FleetSummary :=
  (sortLe strLeB (uniqueFirst (data.map (fun r => r.fleet)))).map (fun f =>
    let revenue := ((fleetGroup data f).map (fun r => r.amount)).sum
    { fleet := f, total_amount := revenue, record_count := (fleetGroup data f).length,
      remittance := calculate_remittance revenue f config })

/-- Daily subtotals of `process_analytics` (`common.py` lines 170-177):
`groupby(["date", "fleet"])` aggregating sum and count, sorted by
(date ascending, fleet ascending). -/
def dailySubtotals (data : List FleetRec) : List DailySubtotal :=
  (sortLe dateFleetLeB (uniqueFirst (data.map (fun r => (r.date, r.fleet))))).map (fun k =>
    { date := k.1, fleet := k.2,
      daily_total := ((dateFleetGroup data k).map (fun r => r.amount)).sum,
      pax := (dateFleetGroup data k).length })

/-- First element attaining the maximum of `f`, like pandas `idxmax` (which
returns the first index of the maximum). -/
def firstMaxBy {α : Type} (f : α → ℚ) : List α → Option α
  | [] => none
  | a :: l =>
      match firstMaxBy f l with
      | none => some a
      | some b => if f b > f a then some b else some a

/-- `fleet_df['amount'].mean()`. -/
def listMean (xs : List ℚ) : ℚ := xs.sum / (xs.length : ℚ)

/-- Square of `fleet_df['amount'].std()`: the sample variance (pandas `std`
uses `ddof = 1`). The code's guard `std == 0` and its z-score comparisons are
expressed through this square, which determines them exactly. -/
def sampleVar (xs : List ℚ) : ℚ :=
  let m := listMean xs
  (xs.map (fun x => (x - m) ^ 2)).sum / ((xs.length : ℚ) - 1)

/-- The amount column of one fleet's group. -/
def fleetAmounts (rs : List FleetRec) (f : String) : List ℚ :=
  (fleetGroup rs f).map (fun r => r.amount)

/-- `mean = fleet_df['amount'].mean()` of `detect_anomalies`. -/
def fleetMean (rs : List FleetRec) (f : String) : ℚ := listMean (fleetAmounts rs f)

/-- The square of `std = fleet_df['amount'].std()` of `detect_anomalies`. -/
def fleetVar (rs : List FleetRec) (f : String) : ℚ := sampleVar (fleetAmounts rs f)

/-- Square of the deviation `amount - mean` of one record against its fleet's
mean. The z-score of the code is `√(devSq / fleetVar)`; since the standard
deviation is positive where this is used, `z > 3 ↔ devSq > 9·var` and
`z > 2 ↔ devSq > 4·var`. -/
def devSq (rs : List FleetRec) (f : String) (x : ℚ) : ℚ := (x - fleetMean rs f) ^ 2

/-- Embedding of `DataProcessor.detect_anomalies` (`common.py` lines 74-114).
Per distinct fleet (first-appearance order of `df['fleet'].unique()`): skip
fleets with fewer than 5 records; skip fleets whose amount standard deviation
is 0 (equivalently, variance 0); otherwise flag each record by its z-score
`z = |amount - mean| / std`. Since `std > 0`, `z > 3` holds exactly when
`(amount - mean)² > 9·var` and `z > 2` exactly when `(amount - mean)² > 4·var`,
which is how the comparisons are stated over `ℚ`. -/
def detect_anomalies (rs : List FleetRec) : List Anomaly :=
  (uniqueFirst (rs.map (fun r => r.fleet))).flatMap (fun f =>
    if (fleetGroup rs f).length < 5 then []
    else
      if fleetVar rs f = 0 then []
      else
        (fleetGroup rs f).flatMap (fun r =>
          if devSq rs f r.amount > 9 * fleetVar rs f then
            [{ date := r.date, fleet := r.fleet, amount := r.amount,
               reason := AnomalyReason.significantDeviation
                 (devSq rs f r.amount / fleetVar rs f),
               severity := "high" }]
          else if devSq rs f r.amount > 4 * fleetVar rs f then
            [{ date := r.date, fleet := r.fleet, amount := r.amount,
               reason := AnomalyReason.unusualAmount, severity := "medium" }]
          else []))

/-- Embedding of `DataProcessor.process_analytics` (`common.py` lines 116-223).
The system configuration, which the source fetches from the database via
`get_system_config()`, is passed as the `config` parameter (same association
list model as in `calculate_remittance`). -/
def process_analytics (records : List FleetRec)
    (config : Option (List (String × String))) : AnalyticsResponse :=
  if records.isEmpty then
    { records := [], fleet_summaries := [], daily_subtotals := [],
      dashboard_stats := { total_revenue := 0, total_records := 0,
                           top_performing_fleet := "N/A", average_trip_revenue := 0 },
      anomalies := [] }
  else
    let data := normalizeData records
    let summaries := fleetSummaries data config
    let total_rev := (data.map (fun r => r.amount)).sum
    let total_count := data.length
    { records := data,
      fleet_summaries := summaries,
      daily_subtotals := dailySubtotals data,
      dashboard_stats :=
        { total_revenue := total_rev,
          total_records := total_count,
          top_performing_fleet :=
            match firstMaxBy (fun s => s.total_amount) summaries with
            | some s => s.fleet
            | none => "N/A",
          average_trip_revenue :=
            if total_count > 0 then total_rev / (total_count : ℚ) else 0,
          revenue_trend_percent := trendPercent data },
      anomalies := detect_anomalies data }

/-- A row of the "Daily Subtotals" sheet built by `ReportGenerator.generate_excel`
(`common.py` lines 260-281): columns Date, BUS CODE, PAX, REVENUE. Subtotal
sentinel rows carry the string `"Subtotal"` in the BUS CODE column. -/
structure SubtotalRow where
  date : Int
  busCode : String
  pax : Nat
  revenue : ℚ
deriving DecidableEq

/-- A row of the "Bus Performance" sheet (`common.py` lines 283-316): columns
BUS CODE, PAX, REVENUE, REMITTANCE, FUEL USED. The grand-total sentinel row
carries `"Grand Total"` in the BUS CODE column. -/
structure BusRow where
  busCode : String
  pax : Nat
  revenue : ℚ
  remittance : ℚ
  fuel_used : ℚ
deriving DecidableEq

/-- The sorted distinct (date, fleet) key list of the `generate_excel`
`groupby(["date", "fleet"])`. -/
def dateFleetKeys (records : List FleetRec) : List (Int × String) :=
  sortLe dateFleetLeB (uniqueFirst (records.map (fun r => (r.date, r.fleet))))

/-- One per-(date, fleet) row of the grouped frame of `generate_excel`
(`TotalAmount` = sum of amounts, `FleetCount` = count). -/
def groupRow (records : List FleetRec) (k : Int × String) : SubtotalRow :=
  { date := k.1, busCode := k.2, pax := (dateFleetGroup records k).length,
    revenue := ((dateFleetGroup records k).map (fun r => r.amount)).sum }

/-- One iteration of `grouped.groupby("date")` in `generate_excel`
(`common.py` lines 261-279): the date's per-(date, fleet) rows, in
fleet-ascending order (the slice of the (date, fleet)-sorted frame), followed
by one `"Subtotal"` row whose PAX and REVENUE are the sums of the group's
FleetCount and TotalAmount columns. -/
def dateSegment (records : List FleetRec) (d : Int) : List SubtotalRow :=
  let group := ((dateFleetKeys records).filter
        (fun k => decide (k.1 = d))).map (groupRow records)
  group ++ [{ date := d, busCode := "Subtotal",
              pax := (group.map (fun row => row.pax)).sum,
              revenue := (group.map (fun row => row.revenue)).sum }]

/-- The `formatted_rows` list of `ReportGenerator.generate_excel`
(`common.py` lines 251-281), built from `analytics.records` when they are
non-empty (on empty records the function returns an empty workbook before this
point): group by (date, fleet), sort by (date, fleet), then emit each distinct
date's segment in date-ascending order. -/
def formatted_rows (records : List FleetRec) : List SubtotalRow :=
  (sortLe intLeB (uniqueFirst (records.map (fun r => r.date)))).flatMap (dateSegment records)

/-- The per-fleet rows of the "Bus Performance" table of `generate_excel`
(`common.py` lines 283-307): group by fleet, sort by BUS CODE, PAX = count,
REVENUE = sum, REMITTANCE via `calculate_remittance` on the stripped code,
FUEL USED = `revenue * 0.30`. -/
def bus_summary_rows (records : List FleetRec)
    (config : Option (List (String × String))) : List BusRow :=
  (sortLe strLeB (uniqueFirst (records.map (fun r => r.fleet)))).map (fun f =>
    let revenue := ((fleetGroup records f).map (fun r => r.amount)).sum
    { busCode := f, pax := (fleetGroup records f).length, revenue := revenue,
      remittance := calculate_remittance revenue (pyStrip f) config,
      fuel_used := revenue * 0.30 })

/-- The "Bus Performance" table after `generate_excel` appends the
`"Grand Total"` row (`common.py` lines 309-316): each numeric column of the
appended row is the sum of that column over the per-fleet rows. -/
def bus_summary_with_total (records : List FleetRec)
    (config : Option (List (String × String))) : List BusRow :=
  let rows := bus_summary_rows records config
  rows ++ [{ busCode := "Grand Total",
             pax := (rows.map (fun row => row.pax)).sum,
             revenue := (rows.map (fun row => row.revenue)).sum,
             remittance := (rows.map (fun row => row.remittance)).sum,
             fuel_used := (rows.map (fun row => row.fuel_used)).sum }]

/-- The distinct-date daily revenue totals, newest first: the query
`db.query(FleetRecord.date, func.sum(FleetRecord.amount)).group_by(date)
.order_by(date.desc())` of `get_dashboard_stats`
(`app/routers/analytics_routes.py` line 103). -/
def dailyTotalsDesc (records : List FleetRec) : List (Int × ℚ) :=
  (sortLe intGeB (uniqueFirst (records.map (fun r => r.date)))).map (fun d =>
    (d, ((records.filter (fun r => decide (r.date = d))).map (fun r => r.amount)).sum))

/-- Embedding of the predictive-revenue computation of `get_dashboard_stats`
(`analytics_routes.py` lines 101-120): take up to the 14 most recent distinct
dates with their daily totals, weight the total at (0-based) recency index `i`
by `14 - i` (so the newest date weighs 14), and divide the weighted sum by the
total weight; 0 when no dates exist. -/
def predicted_revenue (records : List FleetRec) : ℚ :=
  let all_dates := (dailyTotalsDesc records).take 14
  if all_dates.isEmpty then 0
  else
    let weighted_sum := (all_dates.enum.map (fun p => p.2.2 * ((14 : ℚ) - (p.1 : ℚ)))).sum
    let total_weight := (all_dates.enum.map (fun p => ((14 : ℚ) - (p.1 : ℚ)))).sum
    if total_weight > 0 then weighted_sum / total_weight else 0


/-! ## Concrete inputs used by the claim theorems -/

/-- The C1 counterexample input: one record per day for the 14 consecutive days
0..13 (so the dates span exactly 14 consecutive days), with daily totals 100 on
days 0-6 and 200 on days 7-13 — the most recent 7 days total 1400, exactly
twice the prior 7 days' 700. -/
def c1records : List FleetRec :=
  [⟨0, 0, "F", 100⟩, ⟨1, 1, "F", 100⟩, ⟨2, 2, "F", 100⟩, ⟨3, 3, "F", 100⟩,
   ⟨4, 4, "F", 100⟩, ⟨5, 5, "F", 100⟩, ⟨6, 6, "F", 100⟩,
   ⟨7, 7, "F", 200⟩, ⟨8, 8, "F", 200⟩, ⟨9, 9, "F", 200⟩, ⟨10, 10, "F", 200⟩,
   ⟨11, 11, "F", 200⟩, ⟨12, 12, "F", 200⟩, ⟨13, 13, "F", 200⟩]

/-- The C2 counterexample input: exactly two distinct dates, with daily total
100 on the older date 0 and 200 on the newer date 1. -/
def c2records : List FleetRec := [⟨1, 1, "F", 200⟩, ⟨2, 0, "F", 100⟩]

/-- Fleet "A" of the claim's concrete scenario: seven records of amounts
[100, 100, 100, 100, 100, 100, 1000]. -/
def exampleA : List FleetRec :=
  [⟨0, 0, "A", 100⟩, ⟨1, 1, "A", 100⟩, ⟨2, 2, "A", 100⟩, ⟨3, 3, "A", 100⟩,
   ⟨4, 4, "A", 100⟩, ⟨5, 5, "A", 100⟩, ⟨6, 6, "A", 1000⟩]

/-- Fleet "B" of the claim's concrete scenario: only 3 records, with large
variance. -/
def exampleB : List FleetRec := [⟨0, 0, "B", 1⟩, ⟨1, 1, "B", 1000⟩, ⟨2, 2, "B", 5000⟩]

/-- The end-to-end scenario input: records ("2024-01-01", "1001", 1000),
("2024-01-01", "2002", 500), ("2024-01-02", "1001", 1000), with dates modelled
as day numbers 2024-01-01 ↦ 0 and 2024-01-02 ↦ 1. -/
def c6records : List FleetRec :=
  [⟨1, 0, "1001", 1000⟩, ⟨2, 0, "2002", 500⟩, ⟨3, 1, "1001", 1000⟩]

/-! ## List infrastructure lemmas -/

theorem insertLe_perm {α : Type} (le : α → α → Bool) (a : α) (l : List α) :
    (insertLe le a l).Perm (a :: l) := by
  induction l with
  | nil => exact List.Perm.refl _
  | cons b l ih =>
      unfold insertLe
      split
      · exact List.Perm.refl _
      · exact (ih.cons b).trans (List.Perm.swap a b l)

theorem sortLe_perm {α : Type} (le : α → α → Bool) (l : List α) :
    (sortLe le l).Perm l := by
  induction l with
  | nil => exact List.Perm.refl _
  | cons a l ih => exact (insertLe_perm le a (sortLe le l)).trans (ih.cons a)

theorem mem_sortLe {α : Type} (le : α → α → Bool) (x : α) (l : List α) :
    x ∈ sortLe le l ↔ x ∈ l :=
  (sortLe_perm le l).mem_iff

theorem mem_uniqueFirst {α : Type} [DecidableEq α] (x : α) (l : List α) :
    x ∈ uniqueFirst l ↔ x ∈ l := by
  induction l with
  | nil => simp [uniqueFirst]
  | cons a l ih =>
      simp only [uniqueFirst, List.mem_cons, List.mem_filter, ih, decide_eq_true_eq]
      by_cases h : x = a <;> simp [h]

theorem nodup_uniqueFirst {α : Type} [DecidableEq α] (l : List α) :
    (uniqueFirst l).Nodup := by
  induction l with
  | nil => simp [uniqueFirst]
  | cons a l ih =>
      rw [uniqueFirst, List.nodup_cons]
      constructor
      · intro hmem
        have := (List.mem_filter.mp hmem).2
        simp at this
      · exact ih.filter _

theorem nodup_sortLe {α : Type} (le : α → α → Bool) (l : List α) (h : l.Nodup) :
    (sortLe le l).Nodup :=
  ((sortLe_perm le l).nodup_iff).mpr h

theorem sum_map_add2 {K M : Type} [AddCommMonoid M] (l : List K) (f g : K → M) :
    (l.map (fun k => f k + g k)).sum = (l.map f).sum + (l.map g).sum := by
  induction l with
  | nil => simp
  | cons a l ih =>
      simp only [List.map_cons, List.sum_cons, ih, add_add_add_comm]

theorem sum_ite_zero {K M : Type} [DecidableEq K] [AddCommMonoid M]
    (ks : List K) (k : K) (c : M) (h : k ∉ ks) :
    (ks.map (fun x => if k = x then c else 0)).sum = 0 := by
  induction ks with
  | nil => simp
  | cons a ks ih =>
      have h1 : k ≠ a := fun e => h (e ▸ List.mem_cons_self a ks)
      have h2 : k ∉ ks := fun hm => h (List.mem_cons_of_mem _ hm)
      simp [List.map_cons, List.sum_cons, if_neg h1, ih h2]

theorem sum_ite_single {K M : Type} [DecidableEq K] [AddCommMonoid M]
    (keys : List K) (k : K) (c : M) (hnd : keys.Nodup) (hk : k ∈ keys) :
    (keys.map (fun x => if k = x then c else 0)).sum = c := by
  induction keys with
  | nil => cases hk
  | cons a ks ih =>
      rcases List.mem_cons.mp hk with h | h
      · subst h
        have hnotin : k ∉ ks := (List.nodup_cons.mp hnd).1
        simp [sum_ite_zero ks k c hnotin]
      · have hne : k ≠ a := by
          intro e
          exact (List.nodup_cons.mp hnd).1 (e ▸ h)
        simp [if_neg hne, ih (List.nodup_cons.mp hnd).2 h]

theorem sum_groups {α K M : Type} [DecidableEq K] [AddCommMonoid M]
    (key : α → K) (g : α → M) (keys : List K) (rs : List α)
    (hnd : keys.Nodup) (hcov : ∀ r ∈ rs, key r ∈ keys) :
    (keys.map (fun k => ((rs.filter (fun r => decide (key r = k))).map g).sum)).sum
      = (rs.map g).sum := by
  induction rs with
  | nil => simp
  | cons r rs ih =>
      have hcov' : ∀ x ∈ rs, key x ∈ keys := fun x hx => hcov x (List.mem_cons_of_mem _ hx)
      have hr : key r ∈ keys := hcov r (List.mem_cons_self _ _)
      have hstep : ∀ k ∈ keys,
          ((List.filter (fun x => decide (key x = k)) (r :: rs)).map g).sum
            = (if key r = k then g r else 0)
              + ((rs.filter (fun x => decide (key x = k))).map g).sum := by
        intro k _
        by_cases h : key r = k <;> simp [List.filter_cons, h]
      rw [List.map_congr_left hstep, sum_map_add2,
        sum_ite_single keys (key r) (g r) hnd hr, ih hcov']
      simp

theorem sum_ones_length {α : Type} (l : List α) :
    (l.map (fun _ => (1 : ℕ))).sum = l.length := by
  induction l with
  | nil => rfl
  | cons a l ih => simp [List.map_cons, List.sum_cons, ih, Nat.add_comm]

theorem length_groups {α K : Type} [DecidableEq K]
    (key : α → K) (keys : List K) (rs : List α)
    (hnd : keys.Nodup) (hcov : ∀ r ∈ rs, key r ∈ keys) :
    (keys.map (fun k => (rs.filter (fun r => decide (key r = k))).length)).sum
      = rs.length := by
  calc (keys.map (fun k => (rs.filter (fun r => decide (key r = k))).length)).sum
      = (keys.map (fun k =>
          ((rs.filter (fun r => decide (key r = k))).map (fun _ => (1 : ℕ))).sum)).sum := by
        exact congrArg List.sum (List.map_congr_left (fun k _ => (sum_ones_length _).symm))
    _ = (rs.map (fun _ => (1 : ℕ))).sum := sum_groups key (fun _ => (1 : ℕ)) keys rs hnd hcov
    _ = rs.length := sum_ones_length rs

theorem filter_map_comm {α β : Type} (f : α → β) (p : β → Bool) (l : List α) :
    (l.map f).filter p = (l.filter (fun x => p (f x))).map f := by
  induction l with
  | nil => rfl
  | cons a l ih => by_cases h : p (f a) <;> simp [List.filter_cons, h, ih]

theorem filter_flatMap {α β : Type} (l : List α) (f : α → List β) (p : β → Bool) :
    (l.flatMap f).filter p = l.flatMap (fun a => (f a).filter p) := by
  induction l with
  | nil => rfl
  | cons a l ih => simp [List.flatMap_cons, List.filter_append, ih]

theorem flatMap_eq_nil_all {α β : Type} (l : List α) (f : α → List β)
    (h : ∀ b ∈ l, f b = []) : l.flatMap f = [] := by
  induction l with
  | nil => rfl
  | cons a l ih =>
      simp [List.flatMap_cons, h a (List.mem_cons_self _ _),
        ih (fun b hb => h b (List.mem_cons_of_mem _ hb))]

theorem flatMap_eq_single {α β : Type} (l : List α) (f : α → List β) (a : α)
    (hnd : l.Nodup) (ha : a ∈ l) (hz : ∀ b ∈ l, b ≠ a → f b = []) :
    l.flatMap f = f a := by
  induction l with
  | nil => cases ha
  | cons x l ih =>
      rcases List.mem_cons.mp ha with h | h
      · subst h
        have hrest : l.flatMap f = [] := by
          refine flatMap_eq_nil_all l f (fun b hb => ?_)
          refine hz b (List.mem_cons_of_mem _ hb) (fun e => ?_)
          exact (List.nodup_cons.mp hnd).1 (e ▸ hb)
        simp [List.flatMap_cons, hrest]
      · have hx : f x = [] := by
          refine hz x (List.mem_cons_self _ _) (fun e => ?_)
          exact (List.nodup_cons.mp hnd).1 (e ▸ h)
        simp [List.flatMap_cons, hx,
          ih (List.nodup_cons.mp hnd).2 h
            (fun b hb hne => hz b (List.mem_cons_of_mem _ hb) hne)]

/-! ## Projections of `process_analytics` on non-empty input -/

theorem isEmpty_false_of_ne {α : Type} (l : List α) (h : l ≠ []) : l.isEmpty = false := by
  cases l with
  | nil => exact absurd rfl h
  | cons a t => rfl

theorem pa_fleet_summaries (records : List FleetRec) (cfg : Option (List (String × String)))
    (h : records ≠ []) :
    (process_analytics records cfg).fleet_summaries
      = fleetSummaries (normalizeData records) cfg := by
  simp only [process_analytics, isEmpty_false_of_ne records h, Bool.false_eq_true, if_false]

theorem pa_daily_subtotals (records : List FleetRec) (cfg : Option (List (String × String)))
    (h : records ≠ []) :
    (process_analytics records cfg).daily_subtotals
      = dailySubtotals (normalizeData records) := by
  simp only [process_analytics, isEmpty_false_of_ne records h, Bool.false_eq_true, if_false]

theorem pa_total_revenue (records : List FleetRec) (cfg : Option (List (String × String)))
    (h : records ≠ []) :
    (process_analytics records cfg).dashboard_stats.total_revenue
      = ((normalizeData records).map (fun r => r.amount)).sum := by
  simp only [process_analytics, isEmpty_false_of_ne records h, Bool.false_eq_true, if_false]

theorem pa_total_records (records : List FleetRec) (cfg : Option (List (String × String)))
    (h : records ≠ []) :
    (process_analytics records cfg).dashboard_stats.total_records = records.length := by
  simp only [process_analytics, isEmpty_false_of_ne records h, Bool.false_eq_true, if_false]
  exact List.length_map _ _

theorem pa_trend (records : List FleetRec) (cfg : Option (List (String × String)))
    (h : records ≠ []) :
    (process_analytics records cfg).dashboard_stats.revenue_trend_percent
      = trendPercent (normalizeData records) := by
  simp only [process_analytics, isEmpty_false_of_ne records h, Bool.false_eq_true, if_false]

/-! ## Aggregation reconciliation lemmas -/

theorem fleetSummaries_amount_sum (data : List FleetRec)
    (cfg : Option (List (String × String))) :
    ((fleetSummaries data cfg).map (fun s => s.total_amount)).sum
      = (data.map (fun r => r.amount)).sum := by
  unfold fleetSummaries
  rw [List.map_map]
  exact sum_groups (fun r => r.fleet) (fun r => r.amount) _ data
    (nodup_sortLe _ _ (nodup_uniqueFirst _))
    (fun r hr => (mem_sortLe _ _ _).mpr ((mem_uniqueFirst _ _).mpr (List.mem_map_of_mem _ hr)))

theorem fleetSummaries_count_sum (data : List FleetRec)
    (cfg : Option (List (String × String))) :
    ((fleetSummaries data cfg).map (fun s => s.record_count)).sum = data.length := by
  unfold fleetSummaries
  rw [List.map_map]
  exact length_groups (fun r => r.fleet) _ data
    (nodup_sortLe _ _ (nodup_uniqueFirst _))
    (fun r hr => (mem_sortLe _ _ _).mpr ((mem_uniqueFirst _ _).mpr (List.mem_map_of_mem _ hr)))

theorem dailySubtotals_amount_sum (data : List FleetRec) :
    ((dailySubtotals data).map (fun s => s.daily_total)).sum
      = (data.map (fun r => r.amount)).sum := by
  unfold dailySubtotals
  rw [List.map_map]
  exact sum_groups (fun r => (r.date, r.fleet)) (fun r => r.amount) _ data
    (nodup_sortLe _ _ (nodup_uniqueFirst _))
    (fun r hr => (mem_sortLe _ _ _).mpr ((mem_uniqueFirst _ _).mpr (List.mem_map_of_mem _ hr)))

theorem sum_groups_date {M : Type} [AddCommMonoid M] (g : FleetRec → M)
    (records : List FleetRec) (keys : List (Int × String)) (d : Int)
    (hnd : keys.Nodup)
    (hcov : ∀ r ∈ records, (r.date, r.fleet) ∈ keys) :
    ((keys.filter (fun k => decide (k.1 = d))).map
        (fun k => ((dateFleetGroup records k).map g).sum)).sum
      = ((records.filter (fun r => decide (r.date = d))).map g).sum := by
  have hnd' : (keys.filter (fun k => decide (k.1 = d))).Nodup := hnd.filter _
  have hcov' : ∀ r ∈ records.filter (fun r => decide (r.date = d)),
      (r.date, r.fleet) ∈ keys.filter (fun k => decide (k.1 = d)) := by
    intro r hr
    rw [List.mem_filter] at hr ⊢
    exact ⟨hcov r hr.1, by simpa using hr.2⟩
  have hgroup : ∀ k ∈ keys.filter (fun k => decide (k.1 = d)),
      dateFleetGroup records k
        = (records.filter (fun r => decide (r.date = d))).filter
            (fun r => decide ((r.date, r.fleet) = k)) := by
    intro k hk
    have hkd : k.1 = d := by simpa using (List.mem_filter.mp hk).2
    unfold dateFleetGroup
    rw [List.filter_filter]
    apply List.filter_congr
    intro r _
    by_cases hrk : (r.date, r.fleet) = k
    · have hd : r.date = d := by rw [← hkd, ← hrk]
      simp [hrk, hd]
    · simp [hrk]
  rw [List.map_congr_left (fun k hk => by rw [hgroup k hk])]
  exact sum_groups (fun r => (r.date, r.fleet)) g _ _ hnd' hcov'

theorem dailySubtotals_date_sum (data : List FleetRec) (d : Int) :
    (((dailySubtotals data).filter (fun row => decide (row.date = d))).map
        (fun row => row.daily_total)).sum
      = ((data.filter (fun r => decide (r.date = d))).map (fun r => r.amount)).sum := by
  unfold dailySubtotals
  rw [filter_map_comm, List.map_map]
  exact sum_groups_date (fun r => r.amount) data _ d
    (nodup_sortLe _ _ (nodup_uniqueFirst _))
    (fun r hr => (mem_sortLe _ _ _).mpr ((mem_uniqueFirst _ _).mpr (List.mem_map_of_mem _ hr)))

theorem normalizeData_date_amount_sum (records : List FleetRec) (d : Int) :
    (((normalizeData records).filter (fun r => decide (r.date = d))).map
        (fun r => r.amount)).sum
      = ((records.filter (fun r => decide (r.date = d))).map (fun r => r.amount)).sum := by
  unfold normalizeData
  rw [filter_map_comm, List.map_map]
  rfl

/-! ## Claim theorems -/

/-- C7: for the empty record set, `process_analytics` returns its zero/neutral
baseline: total_revenue 0, total_records 0, average_trip_revenue 0,
top_performing_fleet "N/A", and empty record, summary, subtotal, and anomaly
lists (and the schema defaults 0 for the remaining stats fields). -/
theorem C7_empty_baseline (cfg : Option (List (String × String))) :
    process_analytics [] cfg =
      { records := [], fleet_summaries := [], daily_subtotals := [],
        dashboard_stats :=
          { total_revenue := 0, total_records := 0, top_performing_fleet := "N/A",
            average_trip_revenue := 0, predicted_revenue := 0,
            revenue_trend_percent := 0 },
        anomalies := [] } := rfl

/-- C10: for every record set (empty or not) and every configuration, the
`DashboardStats` produced by `process_analytics` carries
`predicted_revenue = 0`: the aggregation path never sets that field, so it
always takes its schema default; the weighted prediction exists only in the
separate dashboard-stats code path (`predicted_revenue` below). -/
theorem C10_predicted_default (records : List FleetRec)
    (cfg : Option (List (String × String))) :
    (process_analytics records cfg).dashboard_stats.predicted_revenue = 0 := by
  by_cases h : records = []
  · subst h; rfl
  · simp only [process_analytics, isEmpty_false_of_ne records h, Bool.false_eq_true, if_false]

/-- C3: the three aggregation paths reconcile. For every non-empty record set:
the fleet summaries' total_amounts and the daily subtotals' daily_totals each
sum to total_revenue; the fleet summaries' record_counts sum to total_records,
which equals the number of input records; and, per date, the daily-subtotal
rows of that date sum to that date's total revenue. -/
theorem C3_reconciliation (records : List FleetRec)
    (cfg : Option (List (String × String))) (h : records ≠ []) :
    (((process_analytics records cfg).fleet_summaries.map (fun s => s.total_amount)).sum
        = (process_analytics records cfg).dashboard_stats.total_revenue)
    ∧ (((process_analytics records cfg).daily_subtotals.map (fun s => s.daily_total)).sum
        = (process_analytics records cfg).dashboard_stats.total_revenue)
    ∧ (((process_analytics records cfg).fleet_summaries.map (fun s => s.record_count)).sum
        = (process_analytics records cfg).dashboard_stats.total_records)
    ∧ ((process_analytics records cfg).dashboard_stats.total_records = records.length)
    ∧ (∀ d : Int,
        ((((process_analytics records cfg).daily_subtotals.filter
              (fun row => decide (row.date = d))).map (fun row => row.daily_total)).sum
          = ((records.filter (fun r => decide (r.date = d))).map (fun r => r.amount)).sum)) := by
  rw [pa_fleet_summaries records cfg h, pa_daily_subtotals records cfg h,
    pa_total_revenue records cfg h, pa_total_records records cfg h]
  refine ⟨fleetSummaries_amount_sum _ _, dailySubtotals_amount_sum _, ?_, rfl, ?_⟩
  · rw [fleetSummaries_count_sum]
    exact List.length_map _ _
  · intro d
    rw [dailySubtotals_date_sum, normalizeData_date_amount_sum]

/-- Witness for C3 at a concrete two-record input. -/
theorem C3_witness :
    (((process_analytics [⟨1, 0, "A", 5⟩, ⟨2, 0, "B", 7⟩] none).fleet_summaries.map
        (fun s => s.total_amount)).sum
      = (process_analytics [⟨1, 0, "A", 5⟩, ⟨2, 0, "B", 7⟩] none).dashboard_stats.total_revenue)
    ∧ ((process_analytics [⟨1, 0, "A", 5⟩, ⟨2, 0, "B", 7⟩] none).dashboard_stats.total_records
        = 2) := by
  have h := C3_reconciliation [⟨1, 0, "A", 5⟩, ⟨2, 0, "B", 7⟩] none (by simp)
  exact ⟨h.1, h.2.2.2.1⟩

/-- C1 counterexample: on `c1records` the most recent 7 days (dates 7..13) sum
to exactly twice the prior 7 days (dates 0..6), yet `revenue_trend_percent` is
150, not 100 — because the code's "last window" `date ≥ max_date - 7` spans
8 calendar days (6..13) and its "previous window" only the remaining 6, giving
(1500 - 600) / 600 · 100 = 150. -/
theorem C1_counterexample :
    ((c1records.filter (fun r => decide (7 ≤ r.date))).map (fun r => r.amount)).sum
        = 2 * ((c1records.filter (fun r => decide (r.date < 7))).map (fun r => r.amount)).sum
    ∧ (process_analytics c1records none).dashboard_stats.revenue_trend_percent = 150 := by
  constructor
  · simp +decide [c1records]
    norm_num
  · rw [pa_trend c1records none (by simp [c1records])]
    simp +decide [c1records, trendPercent, revPrev, revLast, maxDate, normalizeData,
      normalizeFleet, pyStrip, pyUpper, isStripChar]
    norm_num

/-- C1 (amended): for every non-empty record set, `revenue_trend_percent`
equals `(last - previous) / previous * 100` when the previous window's revenue
is positive and 0 otherwise, where the last window is revenue in
`[max_date - 7, max_date]` (`revLast`) and the previous window is revenue in
`[max_date - 14, max_date - 7)` (`revPrev`); in particular, whenever the
previous window's revenue is positive and the last window's revenue is exactly
twice it, the trend equals 100. (The 14-consecutive-day scenario of the claim
is amended to speak of the code's two windows, which span 8 and at most 6 of
those days, not 7 and 7.) -/
theorem C1_trend (records : List FleetRec) (cfg : Option (List (String × String)))
    (h : records ≠ []) :
    ((process_analytics records cfg).dashboard_stats.revenue_trend_percent
      = if revPrev (normalizeData records) > 0
        then ((revLast (normalizeData records) - revPrev (normalizeData records))
                / revPrev (normalizeData records)) * 100
        else 0)
    ∧ (revPrev (normalizeData records) > 0 →
        revLast (normalizeData records) = 2 * revPrev (normalizeData records) →
        (process_analytics records cfg).dashboard_stats.revenue_trend_percent = 100) := by
  rw [pa_trend records cfg h]
  constructor
  · rfl
  · intro hp h2
    unfold trendPercent
    rw [if_pos hp, h2]
    have hsub : 2 * revPrev (normalizeData records) - revPrev (normalizeData records)
        = revPrev (normalizeData records) := by ring
    rw [hsub, div_self (ne_of_gt hp), one_mul]

/-- Witness for C1 at a concrete input with a doubling window: one record on
day 0 (amount 100, the previous window) and one on day 10 (amount 200, the
last window). -/
theorem C1_witness :
    (process_analytics [⟨1, 0, "F", 100⟩, ⟨2, 10, "G", 200⟩] none).dashboard_stats.revenue_trend_percent
      = 100 := by
  refine (C1_trend [⟨1, 0, "F", 100⟩, ⟨2, 10, "G", 200⟩] none (by simp)).2 ?_ ?_
  all_goals
    simp +decide [normalizeData, normalizeFleet, pyStrip, pyUpper, isStripChar, revPrev,
      revLast, maxDate] <;>
    norm_num

/-- C2 counterexample: with two distinct dates of totals 100 (oldest) and 200
(newest), `predicted_revenue` is (200·14 + 100·13)/27 = 4100/27 ≈ 151.85 — the
code weighs by `14 - index` regardless of how many dates exist, so the oldest
of two dates gets weight 13, not 1, and the claimed value
(100·1 + 200·2)/(1 + 2) = 500/3 is not produced. -/
theorem C2_counterexample :
    predicted_revenue c2records = 4100 / 27
    ∧ predicted_revenue c2records ≠ (100 * 1 + 200 * 2) / (1 + 2) := by
  have h : predicted_revenue c2records = 4100 / 27 := by
    simp +decide [c2records, predicted_revenue, dailyTotalsDesc, uniqueFirst, sortLe,
      insertLe, intGeB, List.enum, List.enumFrom]
    norm_num
  refine ⟨h, ?_⟩
  rw [h]
  norm_num

/-- C2 (amended): the weight of the daily total at recency index `i` is always
`14 - i` with index 0 the newest date, regardless of how many dates exist; so
for a record set with exactly two records on two distinct dates (newer total
`a`, older total `b`) the prediction is `(a·14 + b·13)/27` — with totals 100
(oldest) and 200 (newest) that is 4100/27, not 500/3 — and `predicted_revenue`
of an empty record set is 0. -/
theorem C2_predicted (d1 d2 : Int) (a b : ℚ) (h : d2 < d1) :
    predicted_revenue [⟨1, d1, "F", a⟩, ⟨2, d2, "G", b⟩] = (a * 14 + b * 13) / 27
    ∧ predicted_revenue [] = 0 := by
  refine ⟨?_, rfl⟩
  have hne : ¬(d2 = d1) := ne_of_lt h
  have hne' : ¬(d1 = d2) := ne_of_gt h
  have hge : intGeB d1 d2 = true := by
    simp only [intGeB, decide_eq_true_eq]
    exact le_of_lt h
  simp +decide [predicted_revenue, dailyTotalsDesc, uniqueFirst, sortLe, insertLe,
    hne, hne', hge, List.enum, List.enumFrom]
  norm_num

/-- Witness for C2 at the concrete two-date input of the claim (totals 100 on
the older date, 200 on the newer): the prediction is 4100/27. -/
theorem C2_witness :
    predicted_revenue [⟨1, 1, "F", 200⟩, ⟨2, 0, "G", 100⟩] = (200 * 14 + 100 * 13) / 27 := by
  have h := (C2_predicted 1 0 200 100 (by norm_num)).1
  rw [h]

/-- C4: the remittance resolver. When no usable config entry exists
(`configRate` yields nothing — config absent/empty, key missing, or value
unparseable), codes starting with "1" yield `revenue · 0.84`, codes starting
with "2" yield `revenue · 0.875`, and all other codes pass revenue through;
when the config holds `REMITTANCE_<first char>` with a value parsing as a
number `q`, the result is `revenue · (q / 100)`; and the five concrete values
of the claim hold, including the malformed-override fallback. -/
theorem C4_remittance :
    (∀ (revenue : ℚ) (code : String) (cfg : Option (List (String × String))),
        configRate (pyStrip code) cfg = none →
        calculate_remittance revenue code cfg =
          if pyStarts (pyStrip code) "1" then revenue * 0.84
          else if pyStarts (pyStrip code) "2" then revenue * 0.875
          else revenue)
    ∧ (∀ (revenue : ℚ) (code : String) (cfg : List (String × String)) (v : String) (q : ℚ),
        cfg ≠ [] →
        dictLookup cfg ("REMITTANCE_" ++ firstCharStr (pyStrip code)) = some v →
        pyFloat v = some q →
        calculate_remittance revenue code (some cfg) = revenue * (q / 100))
    ∧ calculate_remittance 1000 "1001" none = 840
    ∧ calculate_remittance 1000 "2005" none = 875
    ∧ calculate_remittance 1000 "9999" none = 1000
    ∧ calculate_remittance 1000 "1001" (some [("REMITTANCE_1", "50")]) = 500
    ∧ calculate_remittance 1000 "1001" (some [("REMITTANCE_1", "abc")]) = 840 := by
  refine ⟨?_, ?_, ?_, ?_, ?_, ?_, ?_⟩
  · intro revenue code cfg hnone
    simp [calculate_remittance, hnone]
  · intro revenue code cfg v q hne hlook hparse
    simp [calculate_remittance, configRate, isEmpty_false_of_ne cfg hne, hlook, hparse]
  · simp +decide [calculate_remittance, configRate]
    norm_num
  · simp +decide [calculate_remittance, configRate]
    norm_num
  · simp +decide [calculate_remittance, configRate]
  · simp +decide [calculate_remittance, configRate, dictLookup, firstCharStr, pyFloat,
      parseUnsigned, natOfDigits, pyStrip, isStripChar]
    norm_num
  · simp +decide [calculate_remittance, configRate, dictLookup, firstCharStr, pyFloat,
      parseUnsigned, natOfDigits, pyStrip, isStripChar]
    norm_num

/-- Witness for C4: the numeric-override branch applied at a concrete "2"-series
code with override rate 40. -/
theorem C4_witness :
    calculate_remittance 1000 "2002" (some [("REMITTANCE_2", "40")]) = 400 := by
  have h := C4_remittance.2.1 1000 "2002" [("REMITTANCE_2", "40")] "40" 40 (by simp)
    (by simp +decide [dictLookup, firstCharStr, pyStrip, isStripChar])
    (by simp +decide [pyFloat, parseUnsigned, pyStrip, isStripChar, natOfDigits])
  rw [h]
  norm_num

theorem dictLookup_some_mem (cfg : List (String × String)) (k : String) (v : String)
    (h : dictLookup cfg k = some v) : ∃ p ∈ cfg, p.2 = v := by
  unfold dictLookup at h
  cases hf : cfg.find? (fun p => p.1 == k) with
  | none => rw [hf] at h; simp at h
  | some p =>
      rw [hf] at h
      simp at h
      exact ⟨p, List.mem_of_find?_eq_some hf, h⟩

theorem configRate_some (fc : String) (cfg : Option (List (String × String))) (rate : ℚ)
    (h : configRate fc cfg = some rate) :
    ∃ cl p q, cfg = some cl ∧ p ∈ cl ∧ pyFloat p.2 = some q ∧ rate = q / 100 := by
  cases cfg with
  | none => simp [configRate] at h
  | some cl =>
      by_cases he : cl.isEmpty
      · simp [configRate, he] at h
      · cases hl : dictLookup cl ("REMITTANCE_" ++ firstCharStr fc) with
        | none => simp [configRate, he, hl] at h
        | some v =>
            cases hp : pyFloat v with
            | none => simp [configRate, he, hl, hp] at h
            | some q =>
                have hrate : rate = q / 100 := by
                  simp [configRate, he, hl, hp] at h
                  exact h.symm
                obtain ⟨p, hmem, hpv⟩ := dictLookup_some_mem cl _ v hl
                exact ⟨cl, p, q, rfl, hmem, by rw [hpv]; exact hp, hrate⟩

/-- C8 counterexample: `calculate_remittance` is total (the embedding is a
function, mirroring the code's blanket `except: pass`), but its result is not
always non-negative for non-negative revenue: a well-formed numeric override
with a negative value, `REMITTANCE_1 = "-50"`, makes
`calculate_remittance 1000 "1001"` return -500 < 0. -/
theorem C8_counterexample :
    calculate_remittance 1000 "1001" (some [("REMITTANCE_1", "-50")]) = -500
    ∧ ¬(0 ≤ calculate_remittance 1000 "1001" (some [("REMITTANCE_1", "-50")])) := by
  have h : calculate_remittance 1000 "1001" (some [("REMITTANCE_1", "-50")]) = -500 := by
    simp +decide [calculate_remittance, configRate, dictLookup, firstCharStr, pyFloat,
      parseUnsigned, pyStrip, isStripChar, natOfDigits]
    norm_num
  refine ⟨h, ?_⟩
  rw [h]
  norm_num

/-- C8 (amended): for every revenue ≥ 0, every fleet code, and every
configuration whose values, when they parse as numbers, are non-negative
(in particular absent, missing-key, and malformed-value configurations), the
resolver returns a non-negative value. The totality of the embedded function
models the code's "never raises" behaviour; unrestricted non-negativity fails
(see the counterexample) because a parseable negative override is multiplied
in as-is. -/
theorem C8_nonneg (revenue : ℚ) (code : String) (cfg : Option (List (String × String)))
    (hrev : 0 ≤ revenue)
    (hcfg : ∀ p ∈ cfg.getD [], ∀ q : ℚ, pyFloat p.2 = some q → 0 ≤ q) :
    0 ≤ calculate_remittance revenue code cfg := by
  cases hcr : configRate (pyStrip code) cfg with
  | some rate =>
      simp only [calculate_remittance, hcr]
      obtain ⟨cl, p, q, hcl, hmem, hparse, hrate⟩ := configRate_some _ _ _ hcr
      have hq : 0 ≤ q := hcfg p (by rw [hcl]; exact hmem) q hparse
      have hr : 0 ≤ rate := by
        rw [hrate]
        exact div_nonneg hq (by norm_num)
      exact mul_nonneg hrev hr
  | none =>
      simp only [calculate_remittance, hcr]
      by_cases h1 : pyStarts (pyStrip code) "1" = true
      · rw [if_pos h1]
        exact mul_nonneg hrev (by norm_num)
      · rw [if_neg h1]
        by_cases h2 : pyStarts (pyStrip code) "2" = true
        · rw [if_pos h2]
          exact mul_nonneg hrev (by norm_num)
        · rw [if_neg h2]
          exact hrev

/-- Witness for C8 at a concrete non-negative override. -/
theorem C8_witness : 0 ≤ calculate_remittance 5 "1001" (some [("REMITTANCE_1", "50")]) := by
  refine C8_nonneg 5 "1001" (some [("REMITTANCE_1", "50")]) (by norm_num) ?_
  intro p hp q hq
  simp at hp
  rw [hp] at hq
  have h50 : pyFloat "50" = some 50 := by
    simp +decide [pyFloat, parseUnsigned, pyStrip, isStripChar, natOfDigits]
  rw [h50] at hq
  have : q = 50 := by injection hq with h; exact h.symm
  rw [this]
  norm_num

theorem mem_detect (rs : List FleetRec) (a : Anomaly) (ha : a ∈ detect_anomalies rs) :
    ∃ r ∈ rs, r.fleet = a.fleet ∧ r.date = a.date ∧ r.amount = a.amount
      ∧ 5 ≤ (fleetGroup rs a.fleet).length
      ∧ fleetVar rs a.fleet ≠ 0
      ∧ ((devSq rs a.fleet a.amount > 9 * fleetVar rs a.fleet
            ∧ a.severity = "high"
            ∧ a.reason = AnomalyReason.significantDeviation
                (devSq rs a.fleet a.amount / fleetVar rs a.fleet))
         ∨ (¬(devSq rs a.fleet a.amount > 9 * fleetVar rs a.fleet)
            ∧ devSq rs a.fleet a.amount > 4 * fleetVar rs a.fleet
            ∧ a.severity = "medium" ∧ a.reason = AnomalyReason.unusualAmount)) := by
  unfold detect_anomalies at ha
  rw [List.mem_flatMap] at ha
  obtain ⟨f, hf, hbody⟩ := ha
  by_cases h5 : (fleetGroup rs f).length < 5
  · rw [if_pos h5] at hbody
    simp at hbody
  rw [if_neg h5] at hbody
  by_cases hv : fleetVar rs f = 0
  · rw [if_pos hv] at hbody
    simp at hbody
  rw [if_neg hv] at hbody
  rw [List.mem_flatMap] at hbody
  obtain ⟨r, hr, hcase⟩ := hbody
  have hrf : r.fleet = f := by
    have h := (List.mem_filter.mp hr).2
    simpa using h
  subst hrf
  have hrs : r ∈ rs := (List.mem_filter.mp hr).1
  by_cases h9 : devSq rs r.fleet r.amount > 9 * fleetVar rs r.fleet
  · rw [if_pos h9] at hcase
    simp at hcase
    subst hcase
    exact ⟨r, hrs, rfl, rfl, rfl, Nat.not_lt.mp h5, hv, Or.inl ⟨h9, rfl, rfl⟩⟩
  · rw [if_neg h9] at hcase
    by_cases h4 : devSq rs r.fleet r.amount > 4 * fleetVar rs r.fleet
    · rw [if_pos h4] at hcase
      simp at hcase
      subst hcase
      exact ⟨r, hrs, rfl, rfl, rfl, Nat.not_lt.mp h5, hv, Or.inr ⟨h9, h4, rfl, rfl⟩⟩
    · rw [if_neg h4] at hcase
      simp at hcase

set_option maxHeartbeats 1000000 in
/-- C5: the anomaly detector. Fleets with fewer than 5 records, or with zero
sample variance (equivalently, zero sample standard deviation), contribute no
anomalies; every reported anomaly comes from a record of a fleet with at least
5 records and positive variance and is "high" (with the z-score value carried
in its reason) exactly when `devSq > 9·var` (i.e. `z > 3`) and "medium" (with
the generic reason) exactly when `4·var < devSq ≤ 9·var` (i.e. `2 < z ≤ 3`);
every such record is reported, with the severity its z-score dictates; and on
the claim's concrete inputs, fleet "A" with amounts
[100, 100, 100, 100, 100, 100, 1000] flags exactly its 1000-amount record
(z ≈ 2.27, severity "medium"), while 3-record fleet "B" yields nothing despite
its variance. -/
theorem C5_anomaly_rules :
    (∀ (rs : List FleetRec) (f : String), (fleetGroup rs f).length < 5 →
        ∀ a ∈ detect_anomalies rs, a.fleet ≠ f)
    ∧ (∀ (rs : List FleetRec) (f : String), fleetVar rs f = 0 →
        ∀ a ∈ detect_anomalies rs, a.fleet ≠ f)
    ∧ (∀ (rs : List FleetRec) (a : Anomaly), a ∈ detect_anomalies rs →
        (a.severity = "high" ∧ devSq rs a.fleet a.amount > 9 * fleetVar rs a.fleet
            ∧ a.reason = AnomalyReason.significantDeviation
                (devSq rs a.fleet a.amount / fleetVar rs a.fleet))
        ∨ (a.severity = "medium" ∧ devSq rs a.fleet a.amount > 4 * fleetVar rs a.fleet
            ∧ ¬(devSq rs a.fleet a.amount > 9 * fleetVar rs a.fleet)
            ∧ a.reason = AnomalyReason.unusualAmount))
    ∧ (∀ (rs : List FleetRec) (r : FleetRec), r ∈ rs →
        5 ≤ (fleetGroup rs r.fleet).length →
        fleetVar rs r.fleet ≠ 0 →
        devSq rs r.fleet r.amount > 4 * fleetVar rs r.fleet →
        ∃ a ∈ detect_anomalies rs, a.date = r.date ∧ a.fleet = r.fleet
          ∧ a.amount = r.amount
          ∧ a.severity = (if devSq rs r.fleet r.amount > 9 * fleetVar rs r.fleet
              then "high" else "medium"))
    ∧ detect_anomalies exampleA
        = [Anomaly.mk 6 "A" 1000 AnomalyReason.unusualAmount "medium"]
    ∧ detect_anomalies exampleB = [] := by
  refine ⟨?_, ?_, ?_, ?_, ?_, ?_⟩
  · intro rs f hlen a ha hfl
    obtain ⟨r, _, _, _, _, h5, _, _⟩ := mem_detect rs a ha
    rw [hfl] at h5
    omega
  · intro rs f hvar a ha hfl
    obtain ⟨r, _, _, _, _, _, hv, _⟩ := mem_detect rs a ha
    rw [hfl] at hv
    exact hv hvar
  · intro rs a ha
    obtain ⟨r, _, _, _, _, _, _, hsev⟩ := mem_detect rs a ha
    rcases hsev with ⟨h9, hs, hr⟩ | ⟨h9, h4, hs, hr⟩
    · exact Or.inl ⟨hs, h9, hr⟩
    · refine Or.inr ⟨hs, h4, h9, hr⟩
  · intro rs r hr h5 hv h4
    have hfmem : r.fleet ∈ uniqueFirst (rs.map (fun x => x.fleet)) :=
      (mem_uniqueFirst _ _).mpr (List.mem_map_of_mem _ hr)
    have hgmem : r ∈ fleetGroup rs r.fleet := by
      rw [fleetGroup, List.mem_filter]
      exact ⟨hr, by simp⟩
    by_cases h9 : devSq rs r.fleet r.amount > 9 * fleetVar rs r.fleet
    · refine ⟨Anomaly.mk r.date r.fleet r.amount
          (AnomalyReason.significantDeviation
            (devSq rs r.fleet r.amount / fleetVar rs r.fleet)) "high",
          ?_, rfl, rfl, rfl, by rw [if_pos h9]⟩
      rw [detect_anomalies, List.mem_flatMap]
      refine ⟨r.fleet, hfmem, ?_⟩
      rw [if_neg (Nat.not_lt.mpr h5), if_neg hv, List.mem_flatMap]
      exact ⟨r, hgmem, by rw [if_pos h9]; simp⟩
    · refine ⟨Anomaly.mk r.date r.fleet r.amount AnomalyReason.unusualAmount "medium",
          ?_, rfl, rfl, rfl, by rw [if_neg h9]⟩
      rw [detect_anomalies, List.mem_flatMap]
      refine ⟨r.fleet, hfmem, ?_⟩
      rw [if_neg (Nat.not_lt.mpr h5), if_neg hv, List.mem_flatMap]
      exact ⟨r, hgmem, by rw [if_neg h9, if_pos h4]; simp⟩
  · simp +decide [detect_anomalies, exampleA, uniqueFirst, fleetGroup, fleetVar,
      fleetMean, fleetAmounts, devSq, sampleVar, listMean]
    norm_num
  · simp +decide [detect_anomalies, exampleB, uniqueFirst, fleetGroup, fleetVar,
      fleetMean, fleetAmounts, devSq, sampleVar, listMean]

/-- Witness for C5: the completeness conjunct applied to the 1000-amount record
of fleet "A" yields its "medium" anomaly. -/
theorem C5_witness :
    ∃ a ∈ detect_anomalies exampleA, a.date = 6 ∧ a.fleet = "A" ∧ a.amount = 1000
      ∧ a.severity = "medium" := by
  have h := C5_anomaly_rules.2.2.2.1 exampleA ⟨6, 6, "A", 1000⟩
    (by simp [exampleA])
    (by decide)
    (by simp +decide [fleetVar, fleetMean, fleetAmounts, fleetGroup, sampleVar, listMean,
          exampleA]
        norm_num)
    (by simp +decide [devSq, fleetVar, fleetMean, fleetAmounts, fleetGroup, sampleVar,
          listMean, exampleA]
        norm_num)
  obtain ⟨a, ha, h1, h2, h3, h4⟩ := h
  refine ⟨a, ha, h1, h2, h3, ?_⟩
  rw [h4]
  simp +decide [devSq, fleetVar, fleetMean, fleetAmounts, fleetGroup, sampleVar,
    listMean, exampleA]
  norm_num

set_option maxHeartbeats 1000000 in
/-- C6: on the three-record scenario with no config overrides, the aggregator
produces exactly the fleet summaries 1001 ↦ (total 2000, count 2, remittance
1680) and 2002 ↦ (total 500, count 1, remittance 437.5); exactly the three
daily-subtotal rows, sorted by (date ascending, fleet ascending);
total_revenue 2500; and top_performing_fleet "1001". -/
theorem C6_end_to_end :
    (process_analytics c6records none).fleet_summaries
      = [FleetSummary.mk "1001" 2000 2 1680, FleetSummary.mk "2002" 500 1 437.5]
    ∧ (process_analytics c6records none).daily_subtotals
      = [DailySubtotal.mk 0 "1001" 1000 1, DailySubtotal.mk 0 "2002" 500 1,
         DailySubtotal.mk 1 "1001" 1000 1]
    ∧ (process_analytics c6records none).dashboard_stats.total_revenue = 2500
    ∧ (process_analytics c6records none).dashboard_stats.top_performing_fleet = "1001" := by
  refine ⟨?_, ?_, ?_, ?_⟩ <;>
    simp +decide [c6records, process_analytics, normalizeData, normalizeFleet, pyStrip,
      pyUpper, fleetSummaries, dailySubtotals, fleetGroup, dateFleetGroup, uniqueFirst,
      sortLe, insertLe, strLeB, charListLe, dateFleetLeB, calculate_remittance, configRate,
      pyStarts, listStarts, firstMaxBy, isStripChar] <;>
    norm_num

theorem filter_eq_singleton_of_nodup {α : Type} [DecidableEq α] (l : List α) (a : α)
    (hnd : l.Nodup) (ha : a ∈ l) : l.filter (fun x => decide (x = a)) = [a] := by
  induction l with
  | nil => cases ha
  | cons b l ih =>
      rcases List.mem_cons.mp ha with h | h
      · subst h
        have hnotin : a ∉ l := (List.nodup_cons.mp hnd).1
        have hrest : l.filter (fun x => decide (x = a)) = [] := by
          rw [List.filter_eq_nil_iff]
          intro x hx
          simp only [decide_eq_true_eq]
          intro he
          exact hnotin (he ▸ hx)
        simp [List.filter_cons, hrest]
      · have hne : b ≠ a := fun e => (List.nodup_cons.mp hnd).1 (e ▸ h)
        simp [List.filter_cons, hne, ih (List.nodup_cons.mp hnd).2 h]

theorem length_groups_date (records : List FleetRec) (keys : List (Int × String)) (d : Int)
    (hnd : keys.Nodup)
    (hcov : ∀ r ∈ records, (r.date, r.fleet) ∈ keys) :
    ((keys.filter (fun k => decide (k.1 = d))).map
        (fun k => (dateFleetGroup records k).length)).sum
      = (records.filter (fun r => decide (r.date = d))).length := by
  calc ((keys.filter (fun k => decide (k.1 = d))).map
          (fun k => (dateFleetGroup records k).length)).sum
      = ((keys.filter (fun k => decide (k.1 = d))).map
          (fun k => ((dateFleetGroup records k).map (fun _ => (1 : ℕ))).sum)).sum := by
        exact congrArg List.sum (List.map_congr_left (fun k _ => (sum_ones_length _).symm))
    _ = ((records.filter (fun r => decide (r.date = d))).map (fun _ => (1 : ℕ))).sum :=
        sum_groups_date (fun _ => (1 : ℕ)) records keys d hnd hcov
    _ = (records.filter (fun r => decide (r.date = d))).length := sum_ones_length _

theorem dateFleetKeys_nodup (records : List FleetRec) : (dateFleetKeys records).Nodup :=
  nodup_sortLe _ _ (nodup_uniqueFirst _)

theorem dateFleetKeys_cov (records : List FleetRec) :
    ∀ r ∈ records, (r.date, r.fleet) ∈ dateFleetKeys records := fun r hr =>
  (mem_sortLe _ _ _).mpr ((mem_uniqueFirst _ _).mpr (List.mem_map_of_mem _ hr))

theorem dateFleetKeys_src (records : List FleetRec) (k : Int × String)
    (hk : k ∈ dateFleetKeys records) : ∃ r ∈ records, (r.date, r.fleet) = k := by
  have h := (mem_uniqueFirst _ _).mp ((mem_sortLe _ _ _).mp hk)
  obtain ⟨r, hr, he⟩ := List.mem_map.mp h
  exact ⟨r, hr, he⟩

theorem dateSegment_dates (records : List FleetRec) (d : Int) :
    ∀ row ∈ dateSegment records d, row.date = d := by
  intro row hrow
  rcases List.mem_append.mp hrow with hg | hs
  · obtain ⟨k, hk, he⟩ := List.mem_map.mp hg
    have h1 : k.1 = d := by simpa using (List.mem_filter.mp hk).2
    rw [← he]
    exact h1
  · have : row = _ := List.mem_singleton.mp hs
    rw [this]

theorem dateSegment_subtotal (records : List FleetRec) (d : Int)
    (hsub : ∀ r ∈ records, r.fleet ≠ "Subtotal") :
    (dateSegment records d).filter
        (fun row => decide (row.date = d ∧ row.busCode = "Subtotal"))
      = [SubtotalRow.mk d "Subtotal"
           (records.filter (fun r => decide (r.date = d))).length
           (((records.filter (fun r => decide (r.date = d))).map (fun r => r.amount)).sum)] := by
  simp only [dateSegment]
  rw [List.filter_append]
  have hgrp : (((dateFleetKeys records).filter (fun k => decide (k.1 = d))).map
      (groupRow records)).filter
        (fun row => decide (row.date = d ∧ row.busCode = "Subtotal")) = [] := by
    rw [List.filter_eq_nil_iff]
    intro row hrow
    obtain ⟨k, hk, he⟩ := List.mem_map.mp hrow
    obtain ⟨r, hr, hsrc⟩ := dateFleetKeys_src records k (List.mem_of_mem_filter hk)
    simp only [decide_eq_true_eq, not_and]
    intro _
    rw [← he]
    show (groupRow records k).busCode ≠ "Subtotal"
    have hk2 : k.2 = r.fleet := by rw [← hsrc]
    show k.2 ≠ "Subtotal"
    rw [hk2]
    exact hsub r hr
  have hpax : ((((dateFleetKeys records).filter (fun k => decide (k.1 = d))).map
      (groupRow records)).map (fun row => row.pax)).sum
      = (records.filter (fun r => decide (r.date = d))).length := by
    rw [List.map_map]
    exact length_groups_date records (dateFleetKeys records) d
      (dateFleetKeys_nodup records) (dateFleetKeys_cov records)
  have hrev : ((((dateFleetKeys records).filter (fun k => decide (k.1 = d))).map
      (groupRow records)).map (fun row => row.revenue)).sum
      = ((records.filter (fun r => decide (r.date = d))).map (fun r => r.amount)).sum := by
    rw [List.map_map]
    exact sum_groups_date (fun r => r.amount) records (dateFleetKeys records) d
      (dateFleetKeys_nodup records) (dateFleetKeys_cov records)
  rw [hgrp, List.nil_append, hpax, hrev]
  simp

theorem dateSegment_fleet_row (records : List FleetRec) (d : Int) (f : String)
    (hk : (d, f) ∈ dateFleetKeys records)
    (hf : f ≠ "Subtotal") :
    (dateSegment records d).filter (fun row => decide (row.date = d ∧ row.busCode = f))
      = [groupRow records (d, f)] := by
  simp only [dateSegment]
  rw [List.filter_append]
  have hgrp : (((dateFleetKeys records).filter (fun k => decide (k.1 = d))).map
      (groupRow records)).filter (fun row => decide (row.date = d ∧ row.busCode = f))
      = [groupRow records (d, f)] := by
    rw [filter_map_comm, List.filter_filter]
    rw [List.filter_congr (q := fun k => decide (k = (d, f))) ?hpt]
    · rw [filter_eq_singleton_of_nodup _ _ (dateFleetKeys_nodup records) hk]
      rfl
    case hpt =>
      intro k _
      show (decide (k.1 = d ∧ k.2 = f) && decide (k.1 = d)) = decide (k = (d, f))
      by_cases h1 : k.1 = d
      · by_cases h2 : k.2 = f
        · simp [h1, h2, Prod.ext_iff]
        · simp [h1, h2, Prod.ext_iff]
      · simp [h1, Prod.ext_iff]
  have hlast : ∀ (row : SubtotalRow), row.busCode = "Subtotal" →
      ([row]).filter (fun row => decide (row.date = d ∧ row.busCode = f)) = [] := by
    intro row hrow
    have hfs : ¬(row.busCode = f) := by
      rw [hrow]
      exact fun e => hf e.symm
    simp [hfs]
  rw [hgrp, hlast _ rfl, List.append_nil]

theorem formatted_rows_segment (records : List FleetRec) (d : Int)
    (hd : d ∈ records.map (fun r => r.date)) (p : SubtotalRow → Bool)
    (hp : ∀ row, p row = true → row.date = d) :
    (formatted_rows records).filter p = (dateSegment records d).filter p := by
  unfold formatted_rows
  rw [filter_flatMap]
  refine flatMap_eq_single _ _ d (nodup_sortLe _ _ (nodup_uniqueFirst _))
    ((mem_sortLe _ _ _).mpr ((mem_uniqueFirst _ _).mpr hd)) ?_
  intro d' _ hne
  rw [List.filter_eq_nil_iff]
  intro row hrow hprow
  exact hne ((dateSegment_dates records d' row hrow) ▸ hp row hprow)

/-- C9: sentinel rows of the spreadsheet formatter. For every non-empty record
set whose fleet labels avoid the two sentinel strings (as the engine's
normalized, uppercased labels always do): (i) for each (date, fleet) pair
present, the Daily Subtotals sheet holds exactly one row with that date and
fleet code, the group's count-and-sum row; (ii) for each present date it holds
exactly one row whose BUS CODE column is the sentinel `"Subtotal"`, and its
PAX is the number of that date's records while its REVENUE is the sum of that
date's amounts (the construction places it right after that date's fleet
rows); (iii) the Bus Performance table is its per-fleet rows followed by
exactly one final `"Grand Total"` row, each of whose numeric columns (PAX,
REVENUE, REMITTANCE, FUEL USED) is the sum of that column over all per-fleet
rows — (iv) no per-fleet row carries the sentinel code. -/
theorem C9_report_sentinels (records : List FleetRec)
    (cfg : Option (List (String × String))) (hne : records ≠ [])
    (hsub : ∀ r ∈ records, r.fleet ≠ "Subtotal")
    (hgt : ∀ r ∈ records, r.fleet ≠ "Grand Total") :
    (∀ k ∈ records.map (fun r => (r.date, r.fleet)),
        (formatted_rows records).filter
            (fun row => decide (row.date = k.1 ∧ row.busCode = k.2))
          = [groupRow records k])
    ∧ (∀ d ∈ records.map (fun r => r.date),
        (formatted_rows records).filter
            (fun row => decide (row.date = d ∧ row.busCode = "Subtotal"))
          = [SubtotalRow.mk d "Subtotal"
               (records.filter (fun r => decide (r.date = d))).length
               (((records.filter (fun r => decide (r.date = d))).map
                  (fun r => r.amount)).sum)])
    ∧ bus_summary_with_total records cfg
        = bus_summary_rows records cfg
          ++ [BusRow.mk "Grand Total"
               ((bus_summary_rows records cfg).map (fun row => row.pax)).sum
               ((bus_summary_rows records cfg).map (fun row => row.revenue)).sum
               ((bus_summary_rows records cfg).map (fun row => row.remittance)).sum
               ((bus_summary_rows records cfg).map (fun row => row.fuel_used)).sum]
    ∧ (∀ row ∈ bus_summary_rows records cfg, row.busCode ≠ "Grand Total") := by
  refine ⟨?_, ?_, rfl, ?_⟩
  · intro k hk
    obtain ⟨r, hr, hsrc⟩ := List.mem_map.mp hk
    obtain ⟨d, f⟩ := k
    have hd : d ∈ records.map (fun r => r.date) := by
      have : r.date = d := congrArg Prod.fst hsrc
      exact this ▸ List.mem_map_of_mem _ hr
    have hf : f ≠ "Subtotal" := by
      have : r.fleet = f := congrArg Prod.snd hsrc
      exact this ▸ hsub r hr
    rw [formatted_rows_segment records d hd _ (fun row hrow => by simpa using (of_decide_eq_true hrow).1)]
    exact dateSegment_fleet_row records d f
      ((mem_sortLe _ _ _).mpr ((mem_uniqueFirst _ _).mpr hk)) hf
  · intro d hd
    rw [formatted_rows_segment records d hd _ (fun row hrow => by simpa using (of_decide_eq_true hrow).1)]
    exact dateSegment_subtotal records d hsub
  · intro row hrow
    unfold bus_summary_rows at hrow
    obtain ⟨f, hf, he⟩ := List.mem_map.mp hrow
    have hfs := (mem_uniqueFirst _ _).mp ((mem_sortLe _ _ _).mp hf)
    obtain ⟨r, hr, hrf⟩ := List.mem_map.mp hfs
    rw [← he]
    show f ≠ "Grand Total"
    exact hrf ▸ hgt r hr

/-- Witness for C9 on the three-record scenario: date 0 gets exactly one
Subtotal row, with PAX 2 and REVENUE 1500. -/
theorem C9_witness :
    (formatted_rows c6records).filter
        (fun row => decide (row.date = 0 ∧ row.busCode = "Subtotal"))
      = [SubtotalRow.mk 0 "Subtotal" 2 1500] := by
  have h := (C9_report_sentinels c6records none (by simp [c6records]) (by decide)
    (by decide)).2.1 0 (by simp [c6records])
  rw [h]
  simp +decide [c6records]
  norm_num
